import Mathlib

/-!
Verification of the forge-synchronization core of the `rainboard` dashboard
(`rainboard/models.py`, `gh/views.py`) against its natural-language
specification, via a shallow embedding in Lean 4.

Conventions of the embedding:
* Python dicts used as lookup tables become association lists; indexing a
  dict is a lookup returning `Option` where `none` models a `KeyError`.
* Machine-external effects (HTTP requests, git commands) are passed in as
  explicit inputs (e.g. a function from attempt number to an optional
  response, where `none` models a `requests.exceptions.ConnectionError`).
* A Python function that can raise an uncaught exception is embedded as a
  function returning `Option`/`PyResult`, where the "none"/`exn` case marks
  the raise; partial side effects performed before an uncaught raise are
  not tracked, since no claim under verification depends on them.
* Database tables become lists of row structures; `get_or_create` becomes
  a lookup by natural key followed by an optional insertion.
-/

namespace Rainboard

/-! ## CI status tables (`rainboard/models.py` lines 48-49) -/

/-- `TRAVIS_STATE` dict from `rainboard/models.py` line 48:
`{'created': None, 'passed': True, 'started': None, 'failed': False,
'errored': False, 'canceled': False}`.  The value is the tri-state
`passed` (`none` = unknown). -/
def TRAVIS_STATE : List (String × Option Bool) :=
  [("created", none), ("passed", some true), ("started", none),
   ("failed", some false), ("errored", some false), ("canceled", some false)]

/-- `GITLAB_STATUS` dict from `rainboard/models.py` line 49:
`{'failed': False, 'success': True, 'pending': None, 'skipped': None,
'canceled': None, 'running': None}`. -/
def GITLAB_STATUS : List (String × Option Bool) :=
  [("failed", some false), ("success", some true), ("pending", none),
   ("skipped", none), ("canceled", none), ("running", none)]

/-- Python dict indexing `tbl[s]` (as in `TRAVIS_STATE[build['state']]`,
`GITLAB_STATUS[pipeline['status']]`): `none` models the `KeyError`
raised on a status string absent from the table (a hard error, no
silent default). -/
def dict_get (tbl : List (String × Option Bool)) (s : String) : Option (Option Bool) :=
  (tbl.find? (fun p => p.1 == s)).map (fun p => p.2)

/-! ## Forge API client retry (`rainboard/models.py` lines 74-80 and 455-465) -/

/-- Result of running a Python call: either a returned value, or an
exception that escapes the call uncaught. -/
inductive PyResult (α : Type) where
  | val (a : α)
  | exn
  deriving DecidableEq

/-- `Forge.api_req` (`rainboard/models.py` lines 74-80).  `net n` is the
outcome of the `n`-th `requests.get` of the exact same request (`none`
models a `requests.exceptions.ConnectionError`).  The body tries the
request, and on `ConnectionError` retries once; the second call is not
wrapped in any handler, so a second `ConnectionError` escapes uncaught
(`PyResult.exn`). -/
def Forge.api_req {α : Type} (net : Nat → Option α) : PyResult α :=
  match net 0 with
  | some r => .val r
  | none =>
    match net 1 with
    | some r => .val r
    | none => .exn

/-- `Repo.api_req` (`rainboard/models.py` lines 455-465): same
try/`except ConnectionError`/retry structure as `Forge.api_req`, with the
repository-specific URL; the retry logic is identical. -/
def Repo.api_req {α : Type} (net : Nat → Option α) : PyResult α :=
  match net 0 with
  | some r => .val r
  | none =>
    match net 1 with
    | some r => .val r
    | none => .exn

/-- `Forge.api_data` (`rainboard/models.py` lines 82-84): calls
`api_req` and returns `req.json()` on status 200, else an empty list.
The response is a pair (status code, body); an exception from `api_req`
is not handled here and keeps propagating. -/
def Forge.api_data {α : Type} (net : Nat → Option (Nat × α)) (emptyVal : α) : PyResult α :=
  match Forge.api_req net with
  | .exn => .exn
  | .val (status, body) => .val (if status = 200 then body else emptyVal)

/-! ## Project name normalization (`Project.save`, `rainboard/models.py` lines 199-201) -/

/-- Modelled from the spec: `rainboard/utils.py` (which defines
`valid_name`, imported at `rainboard/models.py` line 23) is not among the
provided sources.  Per the spec, name normalization "strips characters
the target ecosystem disallows"; per `unvalid_projects`
(`rainboard/models.py` line 1155) the disallowed characters are `_` and
`-`.  Each disallowed character is turned into a space. -/
def valid_char (c : Char) : Char :=
  if c = '_' ∨ c = '-' then ' ' else c

/-- Modelled from the spec: `valid_name` from the absent
`rainboard/utils.py`, applied on every `Project.save`
(`rainboard/models.py` line 200): normalizes a project name by replacing
each disallowed character (`_`, `-`) with a space. -/
def valid_name (s : String) : String :=
  ⟨s.data.map valid_char⟩

/-! ## Contributor identity resolution (`rainboard/models.py` lines 1109-1151) -/

/-- A `ContributorName` row: `name` is unique; `contributor` is a nullable
foreign key (the Contributor's id). -/
structure CName where
  name : String
  contributor : Option Nat
  deriving DecidableEq

/-- A `ContributorMail` row: `mail` is unique; `contributor` is a nullable
foreign key; `invalid` is set from `invalid_mail(mail)` at creation. -/
structure CMail where
  mail : String
  contributor : Option Nat
  invalid : Bool
  deriving DecidableEq

/-- The contributor-related tables: existing `Contributor` ids, the
`ContributorName` and `ContributorMail` rows, and the next auto-assigned
Contributor primary key.  List order is immaterial (rows are keyed by the
unique `name`/`mail`); creations are modeled by consing. -/
structure CDB where
  contributors : List Nat
  names : List CName
  mails : List CMail
  nextC : Nat
  deriving DecidableEq

def findName (db : CDB) (name : String) : Option CName :=
  db.names.find? (fun r => r.name == name)

def findMail (db : CDB) (mail : String) : Option CMail :=
  db.mails.find? (fun r => r.mail == mail)

/-- `cname.contributor` for the row keyed by `name` (`none` when the row
is absent or unlinked). -/
def nameContributor (db : CDB) (name : String) : Option Nat :=
  match findName db name with
  | some r => r.contributor
  | none => none

def mailContributor (db : CDB) (mail : String) : Option Nat :=
  match findMail db mail with
  | some r => r.contributor
  | none => none

/-- `cname.contributor = c; cname.save()`. -/
def setNameContributor (db : CDB) (name : String) (c : Option Nat) : CDB :=
  {db with names := db.names.map (fun r => if r.name == name then {r with contributor := c} else r)}

/-- `cmail.contributor = c; cmail.save()`. -/
def setMailContributor (db : CDB) (mail : String) (c : Option Nat) : CDB :=
  {db with mails := db.mails.map (fun r => if r.mail == mail then {r with contributor := c} else r)}

/-- `ContributorName.objects.get_or_create(name=name)`: returns the
updated tables and the `created` flag. -/
def getOrCreateName (db : CDB) (name : String) : CDB × Bool :=
  if (findName db name).isSome then (db, false)
  else ({db with names := ⟨name, none⟩ :: db.names}, true)

/-- `ContributorMail.objects.get_or_create(mail=mail,
defaults={'invalid': invalid_mail(mail)})`.  `inv` is `invalid_mail`
(defined in the absent `rainboard/utils.py`), passed in abstractly. -/
def getOrCreateMail (inv : String → Bool) (db : CDB) (mail : String) : CDB × Bool :=
  if (findMail db mail).isSome then (db, false)
  else ({db with mails := ⟨mail, none, inv mail⟩ :: db.mails}, true)

/-- `merge_contributors` (`rainboard/models.py` lines 1109-1118), for the
two-argument call made by `get_contributor`: re-points every
`ContributorName` and `ContributorMail` row linked to either id to the
minimum id, deletes the Contributor rows among the ids other than the
minimum, and returns `Contributor.objects.get(id=main)` (`none` models
the `DoesNotExist` raise when `main` is not a row). -/
def merge_contributors (db : CDB) (id1 id2 : Nat) : CDB × Option Nat :=
  let ids := [id1, id2]
  let main := min id1 id2
  let names := db.names.map
    (fun r => if r.contributor.any (fun c => ids.contains c) then {r with contributor := some main} else r)
  let mails := db.mails.map
    (fun r => if r.contributor.any (fun c => ids.contains c) then {r with contributor := some main} else r)
  let contributors := db.contributors.filter (fun i => ¬ (i ∈ ids ∧ i ≠ main))
  (⟨contributors, names, mails, db.nextC⟩,
   if main ∈ contributors then some main else none)

/-- Result of a successful `get_contributor` run: the updated tables and
the returned `contributor` (which the code can leave as Python `None`). -/
structure GCOut where
  db : CDB
  contributor : Option Nat
  deriving DecidableEq

/-- `get_contributor` (`rainboard/models.py` lines 1121-1151).  The three
`if name_created or mail_created` sub-blocks are sequential (not elif) in
the source and are modeled in the same order, each reading the current
state.  The overall `Option` is `none` only when an exception escapes
(the `DoesNotExist` inside `merge_contributors`); the unreachable
mismatch arm of the final match is also mapped to `none`. -/
def get_contributor (inv : String → Bool) (db : CDB) (name mail : String) : Option GCOut :=
  let p1 := getOrCreateName db name
  let db1 := p1.1
  let name_created := p1.2
  let p2 := getOrCreateMail inv db1 mail
  let db2 := p2.1
  let mail_created := p2.2
  if name_created || mail_created then
    let s3 : CDB × Option Nat :=
      if name_created && mail_created then
        let c := db2.nextC
        let dbA : CDB := ⟨c :: db2.contributors, db2.names, db2.mails, c + 1⟩
        let dbB := setNameContributor dbA name (some c)
        let dbC := setMailContributor dbB mail (some c)
        (dbC, some c)
      else (db2, none)
    let s4 : CDB × Option Nat :=
      if mail_created then
        let contributor := nameContributor s3.1 name
        (setMailContributor s3.1 mail contributor, contributor)
      else s3
    let s5 : CDB × Option Nat :=
      if name_created then
        let contributor := mailContributor s4.1 mail
        (setNameContributor s4.1 name contributor, contributor)
      else s4
    some ⟨s5.1, s5.2⟩
  else
    let cn := nameContributor db2 name
    let cm := mailContributor db2 mail
    if cn = cm ∨ inv mail = true then some ⟨db2, cn⟩
    else if cn = none ∧ cm ≠ none then some ⟨setNameContributor db2 name cm, cm⟩
    else if cm = none then some ⟨setMailContributor db2 mail cn, cn⟩
    else
      match cn, cm with
      | some a, some b =>
        let m := merge_contributors db2 a b
        match m.2 with
        | some mainId => some ⟨m.1, some mainId⟩
        | none => none
      | _, _ => none

/-- The per-pair body of `Project.contributors(update=True)`
(`rainboard/models.py` lines 364-371): `contributor = get_contributor(...);
contributor.projects.add(self); contributor.save()`.  `m2m` is the
Contributor-Project many-to-many table (pairs of Contributor id and
project slug).  `none` models a raise: either one escaping
`get_contributor`, or the `AttributeError` from `None.projects`. -/
def contributors_add (inv : String → Bool) (db : CDB) (m2m : List (Nat × String))
    (projectSlug : String) (name mail : String) : Option (CDB × List (Nat × String)) :=
  match get_contributor inv db name mail with
  | some out =>
    match out.contributor with
    | some c => some (out.db, if (c, projectSlug) ∈ m2m then m2m else (c, projectSlug) :: m2m)
    | none => none
  | none => none

/-! ## Reconciliation upserts (`update_gitlab` / `update_github`,
`rainboard/models.py` lines 1001-1086) -/

/-- A `Namespace` row (slug unique). -/
structure NamespaceRow where
  slug : String
  name : String
  group : Bool
  deriving DecidableEq

/-- A `Project` row, restricted to the fields `update_gitlab` /
`update_github` read or write.  `name` is the natural key (always stored
normalized through `valid_name`); `main_namespace` and `main_forge` are
nullable foreign keys (namespace slug / forge id); `license` is the
SPDX id of the license foreign key.  The auto-generated `slug` is not
modelled (its slugifier lives in the absent `rainboard/utils.py`). -/
structure ProjectRow where
  name : String
  public : Bool
  main_namespace : Option String
  main_forge : Option Nat
  homepage : Option String
  license : Option String
  deriving DecidableEq

/-- A `Repo` row, keyed by the unique (forge, namespace, project)
triple, restricted to the fields the two upserts touch.  The
auto-generated `slug` (and the `repo.slug = data['path']` assignment in
`update_gitlab`) is not modelled: its slugifier lives in the absent
`rainboard/utils.py` and no claim depends on it. -/
structure RepoRow where
  forge : Nat
  «namespace» : String
  project : String
  name : String
  url : Option String
  homepage : Option String
  repo_id : Nat
  default_branch : String
  clone_url : String
  open_issues : Option Nat
  open_pr : Option Nat
  description : Option String
  forked_from : Option Nat
  license : Option String
  travis_id : Option Nat
  archived : Bool
  deriving DecidableEq

/-- The tables the reconciliation upserts touch. -/
structure RDB where
  namespaces : List NamespaceRow
  projects : List ProjectRow
  repos : List RepoRow
  deriving DecidableEq

/-- `data['namespace']` of a GitLab project payload. -/
structure GLNamespaceData where
  path : String
  name : String
  deriving DecidableEq

/-- The fields of a GitLab project payload that `update_gitlab` reads.
`default_branch` is `none` when the key is missing or null (the two
cases the source treats alike); `open_issues_count` is `none` when the
key is missing; `forked_from_project` is `none` when the key is missing
or null, else the parent's id. -/
structure GLData where
  archived : Bool
  default_branch : Option String
  name : String
  visibility : String
  «namespace» : GLNamespaceData
  id : Nat
  web_url : String
  path : String
  http_url_to_repo : String
  description : Option String
  open_issues_count : Option Nat
  forked_from_project : Option Nat
  deriving DecidableEq

/-- The fields of a GitHub repository payload that `update_github`
reads. -/
structure GHData where
  archived : Bool
  name : String
  homepage : Option String
  id : Nat
  clone_url : String
  html_url : String
  default_branch : String
  open_issues : Nat
  description : Option String
  deriving DecidableEq

/-- The `repo.api_data()` response used inside `update_github`.  The
whole value is `Option`al at the call site (`none` models the empty-list
fallback for a non-200 response, which is falsy).  `license` is `none`
when the `license` key is missing or null; its payload is the
`spdx_id`, `none` when that key is missing or falsy.  `source` is the
`source.id` when the `source` key is present. -/
structure GHRepoData where
  license : Option (Option String)
  source : Option Nat
  open_issues_count : Nat
  deriving DecidableEq

def findProject (db : RDB) (n : String) : Option ProjectRow :=
  db.projects.find? (fun p => p.name == n)

def findRepo (db : RDB) (f : Nat) (ns proj : String) : Option RepoRow :=
  db.repos.find? (fun r => r.forge == f && r.«namespace» == ns && r.project == proj)

/-- `Project.objects.get_or_create(name=..., defaults=...)`: returns the
updated tables, the fetched-or-created row, and the `created` flag. -/
def projGetOrCreate (db : RDB) (n : String) (defaultRow : ProjectRow) :
    RDB × ProjectRow × Bool :=
  match findProject db n with
  | some p => (db, p, false)
  | none => ({db with projects := defaultRow :: db.projects}, defaultRow, true)

/-- `Namespace.objects.get_or_create(slug=..., defaults={'name': ...})`
(the fetched row is unused by `update_gitlab` beyond its slug). -/
def nsGetOrCreate (db : RDB) (slug name : String) : RDB :=
  if (db.namespaces.find? (fun r => r.slug == slug)).isSome then db
  else {db with namespaces := ⟨slug, name, false⟩ :: db.namespaces}

/-- `Repo.objects.get_or_create(forge=..., namespace=..., project=...,
defaults=...)`. -/
def repoGetOrCreate (db : RDB) (f : Nat) (ns proj : String) (defaultRow : RepoRow) :
    RDB × RepoRow × Bool :=
  match findRepo db f ns proj with
  | some r => (db, r, false)
  | none => ({db with repos := defaultRow :: db.repos}, defaultRow, true)

/-- `project.save()`: write the in-memory row back at its natural key. -/
def saveProject (db : RDB) (p : ProjectRow) : RDB :=
  {db with projects := db.projects.map (fun q => if q.name == p.name then p else q)}

/-- `repo.save()`. -/
def saveRepo (db : RDB) (r : RepoRow) : RDB :=
  {db with repos :=
    db.repos.map (fun q =>
      if q.forge == r.forge && q.«namespace» == r.«namespace» && q.project == r.project
      then r else q)}

/-- `update_gitlab` (`rainboard/models.py` lines 1001-1040).  `forge` is
the GitLab Forge's id. -/
def update_gitlab (forge : Nat) (data : GLData) (db : RDB) : RDB :=
  if data.archived then db
  else
    match data.default_branch with
    | none => db
    | some defBranch =>
      let public := ! (data.visibility == "private" || data.visibility == "internal")
      let pname := valid_name data.name
      let t1 := projGetOrCreate db pname ⟨pname, public, none, some forge, none, none⟩
      let db1 := t1.1
      let project := t1.2.1
      let created := t1.2.2
      let db2 := nsGetOrCreate db1 data.«namespace».path data.«namespace».name
      let t2 := repoGetOrCreate db2 forge data.«namespace».path pname
        ⟨forge, data.«namespace».path, pname, data.name, some data.web_url, none, data.id,
         defBranch, data.http_url_to_repo, none, none, none, none, none, none, false⟩
      let db3 := t2.1
      let repo := t2.2.1
      let repo1 := {repo with
        name := data.name,
        url := some data.web_url,
        repo_id := data.id,
        clone_url := data.http_url_to_repo,
        open_issues := (match data.open_issues_count with
          | some n => some n
          | none => repo.open_issues),
        default_branch := defBranch,
        description := data.description}
      match data.forked_from_project with
      | some fid => saveRepo db3 {repo1 with forked_from := some fid}
      | none =>
        if created = true ∨ project.main_namespace = none then
          saveRepo (saveProject db3 {project with main_namespace := some data.«namespace».path}) repo1
        else
          saveRepo db3 repo1

/-- `update_github` (`rainboard/models.py` lines 1043-1086).  `forge` is
the GitHub Forge's id, `nsSlug` the slug of the namespace being scanned,
`repoData` the `repo.api_data()` response, `licenses` the SPDX ids of
the `License` table, `pulls` the length of the `/pulls` listing.  The
second component is `false` when the `ValueError` for an unknown
`spdx_id` is raised (no write after the two get_or_create calls happens
in that case). -/
def update_github (forge : Nat) (nsSlug : String) (data : GHData)
    (repoData : Option GHRepoData) (licenses : List String) (pulls : Nat)
    (db : RDB) : RDB × Bool :=
  if data.archived then (db, true)
  else
    let pname := valid_name data.name
    let t1 := projGetOrCreate db pname
      ⟨pname, true, some nsSlug, some forge, data.homepage, none⟩
    let db1 := t1.1
    let project := t1.2.1
    let t2 := repoGetOrCreate db1 forge nsSlug pname
      ⟨forge, nsSlug, pname, data.name, none, none, data.id, "", data.clone_url,
       none, none, none, none, none, none, false⟩
    let db2 := t2.1
    let repo := t2.2.1
    let repo1 := {repo with
      homepage := data.homepage,
      url := some data.html_url,
      repo_id := data.id,
      default_branch := data.default_branch,
      open_issues := some data.open_issues,
      description := data.description}
    let step : Option (RepoRow × ProjectRow) :=
      match repoData with
      | none => some (repo1, project)
      | some rd =>
        match rd.license with
        | none => some (repo1, project)
        | some spdxOpt =>
          let afterLic : Option (RepoRow × ProjectRow) :=
            match spdxOpt with
            | none => some (repo1, project)
            | some spdx =>
              if spdx ≠ "NOASSERTION" then
                if spdx ∈ licenses then
                  some ({repo1 with license := some spdx},
                        if project.license = none
                        then {project with license := some spdx} else project)
                else none
              else some (repo1, project)
          match afterLic with
          | none => none
          | some rp =>
            match rd.source with
            | some srcId => some ({rp.1 with forked_from := some srcId}, rp.2)
            | none => some rp
    match step with
    | none => (db2, false)
    | some rp =>
      let r3 := (match repoData with
        | some rd => {rp.1 with open_issues := some rd.open_issues_count}
        | none => rp.1)
      let r4 := {r3 with clone_url := data.clone_url, open_pr := some pulls}
      (saveProject (saveRepo db2 r4) rp.2, true)

end Rainboard

namespace GhViews

/-! ## Webhook boundaries (`gh/views.py` lines 127-194) -/

/-- Python `str.split(sep)` for a one-character separator, on the list of
characters: splits at every occurrence of `sep`; the empty string yields
`[[]]` (Python: `''.split('=') == ['']`). -/
def pySplit (sep : Char) : List Char → List (List Char)
  | [] => [[]]
  | c :: cs =>
    match pySplit sep cs with
    | [] => []
    | r :: rs => if c = sep then [] :: r :: rs else (c :: r) :: rs


structure GhRequest where
  ipInHookNetworks : Bool
  signature : Option String
  event : Option String

/-- An inbound GitLab webhook request (`gh/views.py` `gl_webhook`).
`ipLaas` is the outcome of `ip_laas(request)`. -/
structure GlRequest where
  ipLaas : Bool
  token : Option String
  event : Option String

/-- Outcome of a webhook view: the HTTP response, or a dispatch into an
event-handler body.  Only the `handled` case runs a handler body (the only
code that mutates local git refs or datastore rows); every other case is
produced before any mutation. -/
inductive WebhookOutcome where
  | redirectLogin
  | serverError501
  | forbidden (msg : String)
  | internalError
  | pong
  | handled (event : String)
  deriving DecidableEq

/-- `webhook` (`gh/views.py` lines 127-168).  `macHex` is the hex digest of
the HMAC-SHA1 of the raw request body under `settings.GITHUB_WEBHOOK_KEY`
(a deterministic function of the request and settings, passed in).
The Python `algo, signature = signature.split('=')` raises `ValueError`
when the header does not split in exactly two parts (`internalError`). -/
def webhook (req : GhRequest) (macHex : String) : WebhookOutcome :=
  if !req.ipInHookNetworks then .redirectLogin
  else
    match req.signature with
    | none => .redirectLogin
    | some s =>
      match pySplit '=' s.data with
      | [algo, sig] =>
        if algo ≠ "sha1".data then .serverError501
        else if sig ≠ macHex.data then .forbidden "wrong signature."
        else
          let event := req.event.getD "ping"
          if event = "ping" then .pong
          else if event = "push" then .handled "push"
          else if event = "check_suite" then .handled "check_suite"
          else if event = "pull_request" then .handled "pull_request"
          else .forbidden "event not found"
      | _ => .internalError

/-- `gl_webhook` (`gh/views.py` lines 171-194).  `glKey` is
`settings.GITLAB_WEBHOOK_KEY`. -/
def gl_webhook (req : GlRequest) (glKey : String) : WebhookOutcome :=
  if !req.ipLaas then .redirectLogin
  else
    match req.token with
    | none => .redirectLogin
    | some t =>
      if t ≠ glKey then .forbidden "wrong token."
      else
        let event := req.event.getD "ping"
        if event = "ping" then .pong
        else if event = "Pipeline Hook" then .handled "pipeline"
        else .forbidden "event not found"

/-- Whether an outcome dispatched into an event-handler body (the only
place local refs or datastore rows are mutated). -/
def runsHandlerBody : WebhookOutcome → Bool
  | .handled _ => true
  | _ => false

/-- Whether an outcome is a rejection response produced before any
mutation (redirect-to-login, 501, 403, or the 500 from the uncaught
`ValueError`). -/
def isRejection : WebhookOutcome → Bool
  | .redirectLogin => true
  | .serverError501 => true
  | .forbidden _ => true
  | .internalError => true
  | _ => false


/-! ## Push webhook handler (`gh/views.py` lines 55-112) -/

/-- The 40-zero SHA marking a branch deletion in a GitHub push payload. -/
def zeroSha : String := "0000000000000000000000000000000000000000"

/-- Python `str.replace('/', '%2F')` (URL-quoting of the path separator,
as done on `f'{namespace.slug}/{project.slug}'` and on the branch name). -/
def quoteSlash (s : String) : String :=
  ⟨s.data.flatMap (fun c => if c = '/' then "%2F".data else [c])⟩

/-- URL of the GitLab branches API DELETE call issued by the
branch-deletion path of `push` (`gh/views.py` lines 76-80):
`gitlab.api_url() + f'/projects/{project_u}/repository/branches/{branch_u}'`,
with `api_url()` for a GitLab-source forge being `f'{self.url}/api/v4'`. -/
def glDeleteBranchUrl (glForgeUrl ns proj refS : String) : String :=
  glForgeUrl ++ "/api/v4" ++ "/projects/" ++ quoteSlash (ns ++ "/" ++ proj) ++
    "/repository/branches/" ++ quoteSlash refS

/-- State of the local git mirror and forge configuration as seen by
`push`, after the initial `gh_remote.fetch()`:
local branch heads, the (already fetched) remote-tracking refs of the
`github/{ns}` and `gitlab/{ns}` remotes, which remotes exist, and the
`url` of the Forge row with slug `gitlab` (`none` when that row is
absent, making `Forge.objects.get` raise). -/
structure GitState where
  remotes : List String
  branches : List (String × String)
  ghRemoteRefs : List (String × String)
  glRemoteRefs : List (String × String)
  gitlabForgeUrl : Option String

/-- Lookup of a ref/branch by name (e.g. `remote.refs[ref_s]`,
`git_repo.branches[name].commit`). -/
def lookupRef (refs : List (String × String)) (n : String) : Option String :=
  (refs.find? (fun r => r.1 == n)).map (fun r => r.2)

/-- `git_repo.branches[name].commit = sha` or
`git_repo.create_head(name, commit=sha)`: update the branch head if the
branch exists, else create it. -/
def setBranch (bs : List (String × String)) (n sha : String) : List (String × String) :=
  if (bs.find? (fun b => b.1 == n)).isSome
  then bs.map (fun b => if b.1 == n then (n, sha) else b)
  else bs ++ [(n, sha)]

/-- HTTP response of the `push` view. -/
inductive PushResponse where
  | ok
  | badRequest
  deriving DecidableEq

/-- Effects and response of one `push` invocation: final local branches,
the URLs of `requests.delete` calls issued to the GitLab API, and the
refs pushed to the `gitlab/{ns}` remote. -/
structure PushOutcome where
  response : PushResponse
  branches : List (String × String)
  apiDeletes : List String
  glPushes : List String
  deriving DecidableEq

/-- `push` (`gh/views.py` lines 55-112), for an already-resolved
Namespace/Project (the claims under verification presuppose the
`get_object_or_404` lookups succeeded; `ns` and `proj` are their slugs).
`ref` is the payload's `ref` field (`refs/heads/...`, stripped of its
first 11 characters as in the source), `after` the payload's claimed new
SHA.  `none` models an uncaught exception: a missing `github/{ns}` remote
(line 68), a missing remote ref (line 70), or a missing `gitlab` Forge
row (line 76); partial effects before such a raise are not tracked. -/
def push (st : GitState) (ns proj ref after : String) : Option PushOutcome :=
  let refS := ref.drop 11
  let ghRemoteS := "github/" ++ ns
  let glRemoteS := "gitlab/" ++ ns
  let ghRefS := ghRemoteS ++ "/" ++ refS
  let glRefS := glRemoteS ++ "/" ++ refS
  if ¬ ghRemoteS ∈ st.remotes then none
  else
    match lookupRef st.ghRemoteRefs refS with
    | none => none
    | some ghTip =>
      if after = zeroSha then
        let bs := st.branches.filter
          (fun b => ¬ (b.1 = ghRefS ∨ b.1 = glRefS ∨ b.1 = refS))
        match st.gitlabForgeUrl with
        | none => none
        | some glUrl =>
          some ⟨.ok, bs, [glDeleteBranchUrl glUrl ns proj refS], []⟩
      else if ghTip ≠ after then
        some ⟨.badRequest, st.branches, [], []⟩
      else
        let b1 := setBranch st.branches ghRefS after
        let b2 := setBranch b1 refS after
        if ¬ glRemoteS ∈ st.remotes then
          some ⟨.ok, b2, [], []⟩
        else
          let b3 := setBranch b2 glRefS after
          let pushes :=
            match lookupRef st.glRemoteRefs refS with
            | none => [refS]
            | some glTip => if glTip ≠ after then [refS] else []
          some ⟨.ok, b3, [], pushes⟩

end GhViews

namespace Rainboard

theorem valid_char_idem (c : Char) : valid_char (valid_char c) = valid_char c := by
  unfold valid_char
  by_cases h : c = '_' ∨ c = '-' <;> simp [h]

/-! ## Claim theorems for C1, C3, C9 -/

/-- C1, counterexample: the claim says Travis maps `canceled` to unknown,
but `TRAVIS_STATE` in `rainboard/models.py` line 48 maps `'canceled'` to
`False` (tri-state "failed"), not to `None` (unknown). -/
theorem travis_canceled_is_false_not_unknown :
    dict_get TRAVIS_STATE "canceled" = some (some false) ∧
    dict_get TRAVIS_STATE "canceled" ≠ some none := by
  constructor
  · rfl
  · decide

/-- C1, amended: the normalization to the tri-state `passed` value follows
the two fixed lookup tables exactly — Travis maps `created` and `started`
to unknown, `passed` to true, and `failed`, `errored` and `canceled` to
false; GitLab maps `failed` to false, `success` to true, and `pending`,
`skipped`, `canceled` and `running` to unknown — and any status string not
present in the relevant table raises a hard error (`KeyError`, modeled as
`none`) rather than being silently defaulted. -/
theorem ci_status_tables_exact :
    (dict_get TRAVIS_STATE "created" = some none ∧
     dict_get TRAVIS_STATE "passed" = some (some true) ∧
     dict_get TRAVIS_STATE "started" = some none ∧
     dict_get TRAVIS_STATE "failed" = some (some false) ∧
     dict_get TRAVIS_STATE "errored" = some (some false) ∧
     dict_get TRAVIS_STATE "canceled" = some (some false)) ∧
    (dict_get GITLAB_STATUS "failed" = some (some false) ∧
     dict_get GITLAB_STATUS "success" = some (some true) ∧
     dict_get GITLAB_STATUS "pending" = some none ∧
     dict_get GITLAB_STATUS "skipped" = some none ∧
     dict_get GITLAB_STATUS "canceled" = some none ∧
     dict_get GITLAB_STATUS "running" = some none) ∧
    (∀ s : String, s ∉ TRAVIS_STATE.map Prod.fst → dict_get TRAVIS_STATE s = none) ∧
    (∀ s : String, s ∉ GITLAB_STATUS.map Prod.fst → dict_get GITLAB_STATUS s = none) := by
  refine ⟨by decide, by decide, ?_, ?_⟩ <;>
  · intro s hs
    have hfind : ∀ tbl : List (String × Option Bool), s ∉ tbl.map Prod.fst →
        tbl.find? (fun p => p.1 == s) = none := by
      intro tbl htbl
      rw [List.find?_eq_none]
      intro p hp
      simp only [beq_iff_eq]
      intro heq
      exact htbl (by simp only [List.mem_map]; exact ⟨p, hp, heq⟩)
    simp [dict_get, hfind _ hs]

/-- C1, amended, witness: an unmodeled status string (here `"bogus"`) is
not in the Travis table and raises (yields `none`). -/
theorem ci_status_tables_exact_witness :
    "bogus" ∉ TRAVIS_STATE.map Prod.fst ∧ dict_get TRAVIS_STATE "bogus" = none :=
  ⟨by decide, ci_status_tables_exact.2.2.1 "bogus" (by decide)⟩

/-- C3, counterexample: when both the original request and its single
retry hit a connection failure, `Forge.api_req` / `Repo.api_req` do not
return an explicit failure value — the second `ConnectionError` escapes
uncaught (`PyResult.exn`), and the immediate caller `Forge.api_data` does
not handle it either, so the failure is an unhandled crash rather than an
explicit failure signal. -/
theorem api_req_double_failure_crashes :
    Forge.api_req (fun _ => (none : Option Nat)) = PyResult.exn ∧
    Repo.api_req (fun _ => (none : Option Nat)) = PyResult.exn ∧
    Forge.api_data (fun _ => (none : Option (Nat × List Nat))) [] = PyResult.exn :=
  ⟨rfl, rfl, rfl⟩

/-- C3, amended: on a connection-level failure the client retries the
exact same request exactly once (the result depends only on the first two
attempts, and a success of either attempt is returned); if the retry also
fails, the `ConnectionError` exception propagates to the caller uncaught
(an unhandled crash), rather than being returned as an explicit failure
value. -/
theorem api_req_retries_exactly_once {α : Type} (net : Nat → Option α) :
    (∀ r, net 0 = some r → Forge.api_req net = .val r ∧ Repo.api_req net = .val r) ∧
    (net 0 = none → ∀ r, net 1 = some r →
      Forge.api_req net = .val r ∧ Repo.api_req net = .val r) ∧
    (net 0 = none → net 1 = none →
      Forge.api_req net = .exn ∧ Repo.api_req net = .exn) ∧
    (∀ net2 : Nat → Option α, net2 0 = net 0 → net2 1 = net 1 →
      Forge.api_req net2 = Forge.api_req net ∧ Repo.api_req net2 = Repo.api_req net) := by
  refine ⟨fun r h0 => ?_, fun h0 r h1 => ?_, fun h0 h1 => ?_, fun net2 e0 e1 => ?_⟩
  · constructor <;> simp [Forge.api_req, Repo.api_req, h0]
  · constructor <;> simp [Forge.api_req, Repo.api_req, h0, h1]
  · constructor <;> simp [Forge.api_req, Repo.api_req, h0, h1]
  · constructor <;> simp only [Forge.api_req, Repo.api_req, e0, e1]

/-- C3, amended, witness: with both attempts failing, the exception
escapes both client entry points. -/
theorem api_req_retries_exactly_once_witness :
    ((fun _ => (none : Option Nat)) 0 = none) ∧
    Forge.api_req (fun _ => (none : Option Nat)) = PyResult.exn ∧
    Repo.api_req (fun _ => (none : Option Nat)) = PyResult.exn :=
  ⟨rfl,
   ((api_req_retries_exactly_once (fun _ => (none : Option Nat))).2.2.1 rfl rfl).1,
   ((api_req_retries_exactly_once (fun _ => (none : Option Nat))).2.2.1 rfl rfl).2⟩

/-- C9: for every project name string `x`, the normalization applied on
`Project.save` is idempotent: `valid_name (valid_name x) = valid_name x`. -/
theorem valid_name_idempotent (x : String) :
    valid_name (valid_name x) = valid_name x := by
  cases x with
  | mk data =>
    simp only [valid_name, List.map_map]
    congr 1
    exact List.map_congr_left (fun c _ => valid_char_idem c)

theorem find?_map_pred_preserving {α : Type} (l : List α) (f : α → α) (p : α → Bool)
    (h : ∀ a, p (f a) = p a) :
    (l.map f).find? p = (l.find? p).map f := by
  induction l with
  | nil => rfl
  | cons x xs ih =>
    cases hx : p x with
    | true => simp [List.find?, h, hx]
    | false => simp [List.find?, h, hx, ih]

theorem findProject_saveRepo (db : RDB) (r : RepoRow) (m : String) :
    findProject (saveRepo db r) m = findProject db m := rfl

theorem findProject_nsGetOrCreate (db : RDB) (s n m : String) :
    findProject (nsGetOrCreate db s n) m = findProject db m := by
  unfold nsGetOrCreate
  split <;> rfl

theorem findProject_repoGetOrCreate (db : RDB) (f : Nat) (ns proj : String)
    (d : RepoRow) (m : String) :
    findProject (repoGetOrCreate db f ns proj d).1 m = findProject db m := by
  unfold repoGetOrCreate
  cases findRepo db f ns proj <;> rfl

theorem findProject_saveProject (db : RDB) (p2 : ProjectRow) (m : String) :
    findProject (saveProject db p2) m =
      (findProject db m).map (fun q => if q.name == p2.name then p2 else q) := by
  unfold findProject saveProject
  exact find?_map_pred_preserving db.projects _ _ (fun a => by
    by_cases ha : a.name = p2.name <;> simp [ha])

theorem projGetOrCreate_found (db : RDB) (n : String) (d p : ProjectRow)
    (hp : findProject db n = some p) :
    projGetOrCreate db n d = (db, p, false) := by
  unfold projGetOrCreate
  rw [hp]

theorem setNames_fresh (l : List CName) (nm : String) (c : Option Nat)
    (h : l.find? (fun r => r.name == nm) = none) :
    l.map (fun r => if r.name = nm then {r with contributor := c} else r) = l := by
  induction l with
  | nil => rfl
  | cons x xs ih =>
    cases hx : x.name == nm with
    | true => simp [List.find?, hx] at h
    | false =>
      simp only [List.find?, hx] at h
      have hne : ¬ x.name = nm := by simpa using hx
      simp [hne, ih h]

theorem setMails_fresh (l : List CMail) (ml : String) (c : Option Nat)
    (h : l.find? (fun r => r.mail == ml) = none) :
    l.map (fun r => if r.mail = ml then {r with contributor := c} else r) = l := by
  induction l with
  | nil => rfl
  | cons x xs ih =>
    cases hx : x.mail == ml with
    | true => simp [List.find?, hx] at h
    | false =>
      simp only [List.find?, hx] at h
      have hne : ¬ x.mail = ml := by simpa using hx
      simp [hne, ih h]

theorem merge_keep_iff {c1 c2 i : Nat} (hne : c1 ≠ c2) :
    (¬ (i ∈ [c1, c2] ∧ i ≠ min c1 c2)) ↔ i ≠ max c1 c2 := by
  simp only [List.mem_cons, List.not_mem_nil, or_false]
  omega

theorem any_mem_pair_iff (o : Option Nat) (c1 c2 : Nat) :
    (o.any (fun c => [c1, c2].contains c) = true) ↔ (o = some c1 ∨ o = some c2) := by
  cases o <;> simp

/-- C4: when resolution processes a (name, mail) pair whose
`ContributorName` row is linked to Contributor `c1` and whose
`ContributorMail` row is linked to a different Contributor `c2` (both
rows pre-existing, mail valid), the result is one surviving Contributor
— the one with the lower id — to which every `ContributorName` and
`ContributorMail` row of both is re-pointed, and the higher-id
Contributor row is deleted (all other rows are untouched). -/
theorem get_contributor_merges_to_lower_id
    (inv : String → Bool) (db : CDB) (name mail : String)
    (rn : CName) (rm : CMail) (c1 c2 : Nat)
    (hn : findName db name = some rn) (hn1 : rn.contributor = some c1)
    (hm : findMail db mail = some rm) (hm1 : rm.contributor = some c2)
    (hne : c1 ≠ c2) (hinv : inv mail = false)
    (hc1 : c1 ∈ db.contributors) (hc2 : c2 ∈ db.contributors) :
    get_contributor inv db name mail =
      some ⟨⟨db.contributors.filter (fun i => i ≠ max c1 c2),
             db.names.map (fun r =>
               if r.contributor = some c1 ∨ r.contributor = some c2
               then {r with contributor := some (min c1 c2)} else r),
             db.mails.map (fun r =>
               if r.contributor = some c1 ∨ r.contributor = some c2
               then {r with contributor := some (min c1 c2)} else r),
             db.nextC⟩,
            some (min c1 c2)⟩ := by
  have hgn : getOrCreateName db name = (db, false) := by simp [getOrCreateName, hn]
  have hgm : getOrCreateMail inv db mail = (db, false) := by simp [getOrCreateMail, hm]
  have hcn : nameContributor db name = some c1 := by simp [nameContributor, hn, hn1]
  have hcm : mailContributor db mail = some c2 := by simp [mailContributor, hm, hm1]
  have hmainmem : min c1 c2 ∈ db.contributors := by
    rcases Nat.le_total c1 c2 with hle | hle
    · rw [Nat.min_eq_left hle]; exact hc1
    · rw [Nat.min_eq_right hle]; exact hc2
  have hCfilter :
      db.contributors.filter (fun i => ¬ (i ∈ [c1, c2] ∧ i ≠ min c1 c2)) =
      db.contributors.filter (fun i => i ≠ max c1 c2) :=
    List.filter_congr (fun i _ => by
      simp only [decide_eq_decide]
      exact merge_keep_iff hne)
  have hNmap :
      db.names.map (fun r =>
        if r.contributor.any (fun c => [c1, c2].contains c)
        then {r with contributor := some (min c1 c2)} else r) =
      db.names.map (fun r =>
        if r.contributor = some c1 ∨ r.contributor = some c2
        then {r with contributor := some (min c1 c2)} else r) :=
    List.map_congr_left (fun r _ => by
      by_cases hco : r.contributor = some c1 ∨ r.contributor = some c2
      · rw [if_pos ((any_mem_pair_iff _ _ _).mpr hco), if_pos hco]
      · rw [if_neg (fun h => hco ((any_mem_pair_iff _ _ _).mp h)), if_neg hco])
  have hMmap :
      db.mails.map (fun r =>
        if r.contributor.any (fun c => [c1, c2].contains c)
        then {r with contributor := some (min c1 c2)} else r) =
      db.mails.map (fun r =>
        if r.contributor = some c1 ∨ r.contributor = some c2
        then {r with contributor := some (min c1 c2)} else r) :=
    List.map_congr_left (fun r _ => by
      by_cases hco : r.contributor = some c1 ∨ r.contributor = some c2
      · rw [if_pos ((any_mem_pair_iff _ _ _).mpr hco), if_pos hco]
      · rw [if_neg (fun h => hco ((any_mem_pair_iff _ _ _).mp h)), if_neg hco])
  have hmem2 : min c1 c2 ∈
      db.contributors.filter (fun i => ¬ (i ∈ [c1, c2] ∧ i ≠ min c1 c2)) :=
    List.mem_filter.mpr ⟨hmainmem, by simp⟩
  unfold get_contributor
  rw [hgn]
  dsimp only
  rw [hgm]
  dsimp only
  rw [if_neg (by simp)]
  rw [hcn, hcm]
  rw [if_neg (by simp [hne, hinv]), if_neg (by simp), if_neg (by simp)]
  dsimp only
  unfold merge_contributors
  dsimp only
  rw [if_pos hmem2]
  dsimp only
  rw [hCfilter, hNmap, hMmap]

/-- C4, witness: with `alice → Contributor 2` and `a@x.org → Contributor 1`,
resolution merges into Contributor 1 (the lower id), re-points both rows
(and a second mail row of Contributor 2), and deletes Contributor 2. -/
theorem get_contributor_merges_to_lower_id_witness :
    get_contributor (fun _ => false)
        ⟨[1, 2, 7],
         [⟨"alice", some 2⟩, ⟨"bob", some 7⟩],
         [⟨"a@x.org", some 1, false⟩, ⟨"old@x.org", some 2, false⟩], 8⟩
        "alice" "a@x.org" =
      some ⟨⟨[1, 7],
             [⟨"alice", some 1⟩, ⟨"bob", some 7⟩],
             [⟨"a@x.org", some 1, false⟩, ⟨"old@x.org", some 1, false⟩], 8⟩,
            some 1⟩ := by
  rw [get_contributor_merges_to_lower_id (fun _ => false) _ "alice" "a@x.org"
    ⟨"alice", some 2⟩ ⟨"a@x.org", some 1, false⟩ 2 1
    (by decide) rfl (by decide) rfl (by decide) rfl (by decide) (by decide)]
  decide

theorem setNameContributor_cons_hit (cs : List Nat) (r : CName) (ns : List CName)
    (ms : List CMail) (k : Nat) (nm : String) (c : Option Nat)
    (hr : r.name = nm) (hfresh : ns.find? (fun q => q.name == nm) = none) :
    setNameContributor ⟨cs, r :: ns, ms, k⟩ nm c = ⟨cs, ⟨nm, c⟩ :: ns, ms, k⟩ := by
  simp [setNameContributor, hr, setNames_fresh ns nm c hfresh]

theorem setMailContributor_cons_hit (cs : List Nat) (ns : List CName) (r : CMail)
    (ms : List CMail) (k : Nat) (ml : String) (c : Option Nat)
    (hr : r.mail = ml) (hfresh : ms.find? (fun q => q.mail == ml) = none) :
    setMailContributor ⟨cs, ns, r :: ms, k⟩ ml c =
      ⟨cs, ns, ⟨ml, c, r.invalid⟩ :: ms, k⟩ := by
  simp [setMailContributor, hr, setMails_fresh ms ml c hfresh]

theorem nameContributor_cons_hit (cs : List Nat) (r : CName) (ns : List CName)
    (ms : List CMail) (k : Nat) (nm : String) (hr : r.name = nm) :
    nameContributor ⟨cs, r :: ns, ms, k⟩ nm = r.contributor := by
  simp [nameContributor, findName, List.find?, hr]

theorem mailContributor_cons_hit (cs : List Nat) (ns : List CName) (r : CMail)
    (ms : List CMail) (k : Nat) (ml : String) (hr : r.mail = ml) :
    mailContributor ⟨cs, ns, r :: ms, k⟩ ml = r.contributor := by
  simp [mailContributor, findMail, List.find?, hr]

theorem get_contributor_both_new
    (inv : String → Bool) (db : CDB) (name mail : String)
    (hn : findName db name = none) (hm : findMail db mail = none) :
    get_contributor inv db name mail =
      some ⟨⟨db.nextC :: db.contributors,
             ⟨name, some db.nextC⟩ :: db.names,
             ⟨mail, some db.nextC, inv mail⟩ :: db.mails,
             db.nextC + 1⟩,
            some db.nextC⟩ := by
  have hgn : getOrCreateName db name =
      (⟨db.contributors, ⟨name, none⟩ :: db.names, db.mails, db.nextC⟩, true) := by
    simp [getOrCreateName, hn]
  have hgm : getOrCreateMail inv
        ⟨db.contributors, ⟨name, none⟩ :: db.names, db.mails, db.nextC⟩ mail =
      (⟨db.contributors, ⟨name, none⟩ :: db.names,
        ⟨mail, none, inv mail⟩ :: db.mails, db.nextC⟩, true) := by
    have hm2 : findMail ⟨db.contributors, ⟨name, none⟩ :: db.names, db.mails, db.nextC⟩
        mail = none := hm
    simp [getOrCreateMail, hm2]
  unfold get_contributor
  rw [hgn]
  dsimp only
  rw [hgm]
  dsimp only
  simp only [Bool.or_self, Bool.and_self, eq_self_iff_true, if_true]
  rw [setNameContributor_cons_hit (db.nextC :: db.contributors) ⟨name, none⟩ db.names
        (⟨mail, none, inv mail⟩ :: db.mails) (db.nextC + 1) name (some db.nextC) rfl hn]
  rw [setMailContributor_cons_hit (db.nextC :: db.contributors)
        (⟨name, some db.nextC⟩ :: db.names) ⟨mail, none, inv mail⟩ db.mails
        (db.nextC + 1) mail (some db.nextC) rfl hm]
  dsimp only
  rw [nameContributor_cons_hit (db.nextC :: db.contributors) ⟨name, some db.nextC⟩
        db.names (⟨mail, some db.nextC, inv mail⟩ :: db.mails) (db.nextC + 1) name rfl]
  dsimp only
  rw [setMailContributor_cons_hit (db.nextC :: db.contributors)
        (⟨name, some db.nextC⟩ :: db.names) ⟨mail, some db.nextC, inv mail⟩ db.mails
        (db.nextC + 1) mail (some db.nextC) rfl hm]
  dsimp only
  rw [mailContributor_cons_hit (db.nextC :: db.contributors)
        (⟨name, some db.nextC⟩ :: db.names) ⟨mail, some db.nextC, inv mail⟩ db.mails
        (db.nextC + 1) mail rfl]
  rw [setNameContributor_cons_hit (db.nextC :: db.contributors) ⟨name, some db.nextC⟩
        db.names (⟨mail, some db.nextC, inv mail⟩ :: db.mails) (db.nextC + 1) name
        (some db.nextC) rfl hn]

theorem get_contributor_name_new
    (inv : String → Bool) (db : CDB) (name mail : String) (rm : CMail)
    (hn : findName db name = none) (hm : findMail db mail = some rm) :
    get_contributor inv db name mail =
      some ⟨⟨db.contributors, ⟨name, rm.contributor⟩ :: db.names, db.mails, db.nextC⟩,
            rm.contributor⟩ := by
  have hgn : getOrCreateName db name =
      (⟨db.contributors, ⟨name, none⟩ :: db.names, db.mails, db.nextC⟩, true) := by
    simp [getOrCreateName, hn]
  have hm2 : findMail ⟨db.contributors, ⟨name, none⟩ :: db.names, db.mails, db.nextC⟩
      mail = some rm := hm
  have hgm : getOrCreateMail inv
        ⟨db.contributors, ⟨name, none⟩ :: db.names, db.mails, db.nextC⟩ mail =
      (⟨db.contributors, ⟨name, none⟩ :: db.names, db.mails, db.nextC⟩, false) := by
    simp [getOrCreateMail, hm2]
  have hmc : mailContributor
      ⟨db.contributors, ⟨name, none⟩ :: db.names, db.mails, db.nextC⟩ mail =
      rm.contributor := by
    simp [mailContributor, hm2]
  unfold get_contributor
  rw [hgn]
  dsimp only
  rw [hgm]
  dsimp only
  simp only [Bool.or_false, Bool.and_false, eq_self_iff_true, if_true,
    Bool.false_eq_true, if_false]
  rw [hmc]
  rw [setNameContributor_cons_hit db.contributors ⟨name, none⟩ db.names db.mails
        db.nextC name rm.contributor rfl hn]

/-- C7: when contributor resolution first processes `(A, M)` (both
previously unseen) and later processes `(B, M)` with name `B` not seen
before, both `ContributorName` rows (`A` and `B`) end up linked to the
same Contributor. -/
theorem same_mail_links_names_to_same_contributor
    (inv : String → Bool) (db : CDB) (A B M : String)
    (hA : findName db A = none) (hM : findMail db M = none)
    (hB : findName db B = none) (hBA : B ≠ A) :
    ∃ o1 o2 : GCOut,
      get_contributor inv db A M = some o1 ∧
      get_contributor inv o1.db B M = some o2 ∧
      ∃ c : Nat, nameContributor o2.db A = some c ∧ nameContributor o2.db B = some c := by
  have hAB : ¬ A = B := fun e => hBA e.symm
  have hABb : (A == B) = false := by simpa using hAB
  have hBAb : (B == A) = false := by simpa using hBA
  have hB0 : db.names.find? (fun r => r.name == B) = none := hB
  have h1 := get_contributor_both_new inv db A M hA hM
  have hB1 : findName ⟨db.nextC :: db.contributors,
      ⟨A, some db.nextC⟩ :: db.names,
      ⟨M, some db.nextC, inv M⟩ :: db.mails, db.nextC + 1⟩ B = none := by
    simp [findName, List.find?, hABb, hB0]
  have hM1 : findMail ⟨db.nextC :: db.contributors,
      ⟨A, some db.nextC⟩ :: db.names,
      ⟨M, some db.nextC, inv M⟩ :: db.mails, db.nextC + 1⟩ M =
      some ⟨M, some db.nextC, inv M⟩ := by
    simp [findMail, List.find?]
  have h2 := get_contributor_name_new inv _ B M _ hB1 hM1
  refine ⟨_, _, h1, h2, db.nextC, ?_, ?_⟩
  · simp [nameContributor, findName, List.find?, hBAb]
  · simp [nameContributor, findName, List.find?]

/-- C7, witness: starting from empty tables, resolving `(alice, a@x.org)`
then `(bob, a@x.org)` links both name rows to the same Contributor. -/
theorem same_mail_links_names_to_same_contributor_witness :
    ∃ o1 o2 : GCOut,
      get_contributor (fun _ => false) ⟨[], [], [], 0⟩ "alice" "a@x.org" = some o1 ∧
      get_contributor (fun _ => false) o1.db "bob" "a@x.org" = some o2 ∧
      ∃ c : Nat, nameContributor o2.db "alice" = some c ∧
        nameContributor o2.db "bob" = some c :=
  same_mail_links_names_to_same_contributor (fun _ => false) ⟨[], [], [], 0⟩
    "alice" "bob" "a@x.org" (by decide) (by decide) (by decide) (by decide)

/-- C8: for every Project whose `main_namespace` is already set, running
the GitLab or GitHub reconciliation upsert (`update_gitlab` /
`update_github`) on any payload leaves `main_namespace` unchanged:
whatever the payload, the Project row keyed by the payload's normalized
name still carries the same `main_namespace` afterwards.  (Assignment
happens only on creation or when the Project had none.) -/
theorem main_namespace_never_reassigned (db : RDB) (forge : Nat) (x : String) :
    (∀ (gld : GLData) (p : ProjectRow),
      findProject db (valid_name gld.name) = some p →
      p.main_namespace = some x →
      ∀ q, findProject (update_gitlab forge gld db) (valid_name gld.name) = some q →
        q.main_namespace = some x) ∧
    (∀ (nsSlug : String) (ghd : GHData) (repoData : Option GHRepoData)
        (licenses : List String) (pulls : Nat) (p : ProjectRow),
      findProject db (valid_name ghd.name) = some p →
      p.main_namespace = some x →
      ∀ q, findProject (update_github forge nsSlug ghd repoData licenses pulls db).1
          (valid_name ghd.name) = some q →
        q.main_namespace = some x) := by
  constructor
  · intro gld p hp hx q hq
    unfold update_gitlab at hq
    by_cases hA : gld.archived = true
    · rw [if_pos hA] at hq
      rw [hp] at hq
      obtain rfl := Option.some.inj hq
      exact hx
    · rw [if_neg hA] at hq
      rcases hDB : gld.default_branch with _ | defBranch <;> rw [hDB] at hq
      · rw [hp] at hq
        obtain rfl := Option.some.inj hq
        exact hx
      · dsimp only at hq
        rw [projGetOrCreate_found db (valid_name gld.name) _ p hp] at hq
        dsimp only at hq
        rcases hFF : gld.forked_from_project with _ | fid <;> rw [hFF] at hq
        · rw [if_neg (by simp [hx])] at hq
          rw [findProject_saveRepo, findProject_repoGetOrCreate,
            findProject_nsGetOrCreate, hp] at hq
          obtain rfl := Option.some.inj hq
          exact hx
        · rw [findProject_saveRepo, findProject_repoGetOrCreate,
            findProject_nsGetOrCreate, hp] at hq
          obtain rfl := Option.some.inj hq
          exact hx
  · intro nsSlug ghd repoData licenses pulls p hp hx q hq
    unfold update_github at hq
    by_cases hA : ghd.archived = true
    · rw [if_pos hA] at hq
      dsimp only at hq
      rw [hp] at hq
      obtain rfl := Option.some.inj hq
      exact hx
    · rw [if_neg hA] at hq
      dsimp only at hq
      rw [projGetOrCreate_found db (valid_name ghd.name) _ p hp] at hq
      dsimp only at hq
      rcases hRD : repoData with _ | rd <;> rw [hRD] at hq <;> dsimp only at hq
      · rw [findProject_saveProject, findProject_saveRepo,
          findProject_repoGetOrCreate, hp] at hq
        simp only [Option.map_some', beq_self_eq_true, eq_self_iff_true, if_true,
          Option.some.injEq] at hq
        subst hq
        exact hx
      · rcases hL : rd.license with _ | spdxOpt <;> rw [hL] at hq
        · dsimp only at hq
          rw [findProject_saveProject, findProject_saveRepo,
            findProject_repoGetOrCreate, hp] at hq
          simp only [Option.map_some', beq_self_eq_true, eq_self_iff_true, if_true,
            Option.some.injEq] at hq
          subst hq
          exact hx
        · rcases hS : spdxOpt with _ | spdx <;> rw [hS] at hq <;> dsimp only at hq
          · rcases hSrc : rd.source with _ | srcId <;> rw [hSrc] at hq <;>
            · dsimp only at hq
              rw [findProject_saveProject, findProject_saveRepo,
                findProject_repoGetOrCreate, hp] at hq
              simp only [Option.map_some', beq_self_eq_true, eq_self_iff_true, if_true,
                Option.some.injEq] at hq
              subst hq
              exact hx
          · by_cases hNA : spdx = "NOASSERTION"
            · rw [if_neg (by simp [hNA])] at hq
              dsimp only at hq
              rcases hSrc : rd.source with _ | srcId <;> rw [hSrc] at hq <;>
              · dsimp only at hq
                rw [findProject_saveProject, findProject_saveRepo,
                  findProject_repoGetOrCreate, hp] at hq
                simp only [Option.map_some', beq_self_eq_true, eq_self_iff_true, if_true,
                  Option.some.injEq] at hq
                subst hq
                exact hx
            · rw [if_pos hNA] at hq
              by_cases hLic : spdx ∈ licenses
              · rw [if_pos hLic] at hq
                dsimp only at hq
                by_cases hPL : p.license = none
                · rw [if_pos hPL] at hq
                  rcases hSrc : rd.source with _ | srcId <;> rw [hSrc] at hq <;>
                  · dsimp only at hq
                    rw [findProject_saveProject, findProject_saveRepo,
                      findProject_repoGetOrCreate, hp] at hq
                    simp only [Option.map_some', beq_self_eq_true, eq_self_iff_true, if_true,
                      Option.some.injEq] at hq
                    subst hq
                    exact hx
                · rw [if_neg hPL] at hq
                  rcases hSrc : rd.source with _ | srcId <;> rw [hSrc] at hq <;>
                  · dsimp only at hq
                    rw [findProject_saveProject, findProject_saveRepo,
                      findProject_repoGetOrCreate, hp] at hq
                    simp only [Option.map_some', beq_self_eq_true, eq_self_iff_true, if_true,
                      Option.some.injEq] at hq
                    subst hq
                    exact hx
              · rw [if_neg hLic] at hq
                dsimp only at hq
                rw [findProject_repoGetOrCreate, hp] at hq
                obtain rfl := Option.some.inj hq
                exact hx

/-- C8, witness: a GitLab payload and a GitHub payload for project
`demo`, whose row already has `main_namespace = some "orig"`, leave that
value unchanged. -/
theorem main_namespace_never_reassigned_witness :
    findProject
        (update_gitlab 1
          ⟨false, some "master", "demo", "public", ⟨"other", "Other"⟩, 5, "u", "demo",
           "c", none, none, none⟩
          ⟨[], [⟨"demo", true, some "orig", some 1, none, none⟩], []⟩)
        (valid_name "demo") =
      some ⟨"demo", true, some "orig", some 1, none, none⟩ ∧
    findProject
        (update_github 1 "other"
          ⟨false, "demo", none, 6, "c", "h", "master", 0, none⟩ none [] 0
          ⟨[], [⟨"demo", true, some "orig", some 1, none, none⟩], []⟩).1
        (valid_name "demo") =
      some ⟨"demo", true, some "orig", some 1, none, none⟩ ∧
    (⟨"demo", true, some "orig", some 1, none, none⟩ : ProjectRow).main_namespace =
      some "orig" :=
  ⟨by decide, by decide,
   (main_namespace_never_reassigned
      ⟨[], [⟨"demo", true, some "orig", some 1, none, none⟩], []⟩ 1 "orig").1
     ⟨false, some "master", "demo", "public", ⟨"other", "Other"⟩, 5, "u", "demo",
      "c", none, none, none⟩
     ⟨"demo", true, some "orig", some 1, none, none⟩ (by decide) rfl
     ⟨"demo", true, some "orig", some 1, none, none⟩ (by decide)⟩

/-- C10: for every (name, mail) pair where both the `ContributorName` row
and the `ContributorMail` row already exist and neither is linked to any
Contributor, `get_contributor` returns no Contributor (`None`), leaving
the tables untouched (no new Contributor allocated, no row linked), so
the caller `Project.contributors` — which immediately does
`contributor.projects.add(self)` on the result — raises on such input. -/
theorem get_contributor_unlinked_rows_yield_none
    (inv : String → Bool) (db : CDB) (name mail : String) (rn : CName) (rm : CMail)
    (hn : findName db name = some rn) (hn0 : rn.contributor = none)
    (hm : findMail db mail = some rm) (hm0 : rm.contributor = none) :
    get_contributor inv db name mail = some ⟨db, none⟩ ∧
    (∀ m2m projectSlug, contributors_add inv db m2m projectSlug name mail = none) := by
  have h1 : get_contributor inv db name mail = some ⟨db, none⟩ := by
    unfold get_contributor
    simp [getOrCreateName, getOrCreateMail, nameContributor, mailContributor,
      hn, hm, hn0, hm0]
  exact ⟨h1, fun m2m projectSlug => by simp [contributors_add, h1]⟩

/-- C10, witness: with `alice` and `a@x.org` present but unlinked, the
resolution returns `None` unchanged, and the caller step raises. -/
theorem get_contributor_unlinked_rows_yield_none_witness :
    get_contributor (fun _ => false)
        ⟨[], [⟨"alice", none⟩], [⟨"a@x.org", none, false⟩], 0⟩ "alice" "a@x.org" =
      some ⟨⟨[], [⟨"alice", none⟩], [⟨"a@x.org", none, false⟩], 0⟩, none⟩ ∧
    contributors_add (fun _ => false)
        ⟨[], [⟨"alice", none⟩], [⟨"a@x.org", none, false⟩], 0⟩ [] "prj" "alice" "a@x.org" =
      none := by
  have h := get_contributor_unlinked_rows_yield_none (fun _ => false)
    ⟨[], [⟨"alice", none⟩], [⟨"a@x.org", none, false⟩], 0⟩ "alice" "a@x.org"
    ⟨"alice", none⟩ ⟨"a@x.org", none, false⟩ (by decide) rfl (by decide) rfl
  exact ⟨h.1, h.2 [] "prj"⟩

end Rainboard

namespace GhViews

theorem pySplit_ne_nil (sep : Char) (l : List Char) : pySplit sep l ≠ [] := by
  induction l with
  | nil => simp [pySplit]
  | cons c cs ih =>
    simp only [pySplit]
    rcases h : pySplit sep cs with _ | ⟨r, rs⟩
    · exact absurd h ih
    · by_cases hc : c = sep <;> simp [hc]

theorem pySplit_singleton (sep : Char) (l x : List Char)
    (h : pySplit sep l = [x]) : l = x := by
  induction l generalizing x with
  | nil => simp [pySplit] at h; simp [h]
  | cons c cs ih =>
    simp only [pySplit] at h
    rcases hrec : pySplit sep cs with _ | ⟨r, rs⟩
    · exact absurd hrec (pySplit_ne_nil sep cs)
    · rw [hrec] at h
      by_cases hc : c = sep
      · simp only [hc, if_true] at h
        injection h with h1 h2
        simp at h2
      · simp only [hc, if_false] at h
        injection h with h1 h2
        subst h2
        rw [← h1, ih r hrec]

theorem pySplit_pair (sep : Char) (l a b : List Char)
    (h : pySplit sep l = [a, b]) : l = a ++ sep :: b := by
  induction l generalizing a with
  | nil => simp [pySplit] at h
  | cons c cs ih =>
    simp only [pySplit] at h
    rcases hrec : pySplit sep cs with _ | ⟨r, rs⟩
    · exact absurd hrec (pySplit_ne_nil sep cs)
    · rw [hrec] at h
      by_cases hc : c = sep
      · simp only [hc, if_true] at h
        injection h with h1 h2
        injection h2 with h3 h4
        subst h4
        have hcs : cs = b := pySplit_singleton sep cs b (by rw [hrec, h3])
        simp [← h1, hc, hcs]
      · simp only [hc, if_false] at h
        injection h with h1 h2
        have hcs : cs = r ++ sep :: b := ih r (by rw [hrec, h2])
        simp [← h1, hcs]

/-- An inbound GitHub webhook request (`gh/views.py` `webhook`), after the
framework has parsed headers.  `ipInHookNetworks` is the outcome of the
per-request check that `X-Forwarded-For` lies in one of the CIDR blocks
fetched from `https://api.github.com/meta` (an external-service call,
passed in as a fact about the request). -/

theorem data_eq_of_sha1_parts {s macHex : String} {a b : List Char}
    (hsp : pySplit '=' s.data = [a, b])
    (ha : a = "sha1".data) (hb : b = macHex.data) : s = "sha1=" ++ macHex := by
  have hjoin : s.data = a ++ '=' :: b := pySplit_pair '=' s.data a b hsp
  have : s.data = ("sha1=" ++ macHex).data := by
    rw [String.data_append, hjoin, ha, hb]
    rfl
  cases s
  cases macHex
  simp only [String.data_append] at this ⊢
  exact congrArg String.mk this

/-- C2: for every inbound webhook request (GitHub or GitLab endpoint), a
request with a missing signature/token is handled the same way as a
request with an invalid one: it is rejected before any mutation of local
refs or datastore rows, and no handler body runs.  The hypothesis on the
GitHub side covers both cases at once: the `X-Hub-Signature` header is
absent, or present but different from the unique accepted value
`sha1=<hmac hex digest>`; on the GitLab side: `X-Gitlab-Token` absent or
different from the configured key. -/
theorem webhook_missing_or_invalid_auth_rejected
    (gh : GhRequest) (macHex : String) (gl : GlRequest) (glKey : String)
    (hgh : ∀ s, gh.signature = some s → s ≠ "sha1=" ++ macHex)
    (hgl : gl.token ≠ some glKey) :
    (isRejection (webhook gh macHex) = true ∧
     runsHandlerBody (webhook gh macHex) = false) ∧
    (isRejection (gl_webhook gl glKey) = true ∧
     runsHandlerBody (gl_webhook gl glKey) = false) := by
  constructor
  · rcases gh with ⟨ip, sig, ev⟩
    unfold webhook
    cases ip
    · simp [isRejection, runsHandlerBody]
    · simp only [Bool.not_true, if_neg (by simp : ¬ (false = true))]
      rcases sig with _ | s
      · simp [isRejection, runsHandlerBody]
      · have hs : s ≠ "sha1=" ++ macHex := hgh s rfl
        dsimp only
        rcases hsp : pySplit '=' s.data with _ | ⟨a, _ | ⟨b, _ | ⟨c, rest⟩⟩⟩
        · simp [isRejection, runsHandlerBody]
        · simp [isRejection, runsHandlerBody]
        · by_cases hA : a = "sha1".data
          · by_cases hB : b = macHex.data
            · exact absurd (data_eq_of_sha1_parts hsp hA hB) hs
            · simp [hA, hB, isRejection, runsHandlerBody]
          · simp [hA, isRejection, runsHandlerBody]
        · simp [isRejection, runsHandlerBody]
  · rcases gl with ⟨ip, tok, ev⟩
    unfold gl_webhook
    cases ip
    · simp [isRejection, runsHandlerBody]
    · simp only [Bool.not_true, if_neg (by simp : ¬ (false = true))]
      rcases tok with _ | t
      · simp [isRejection, runsHandlerBody]
      · have ht : t ≠ glKey := by
          intro h
          exact hgl (by rw [h])
        simp [ht, isRejection, runsHandlerBody]

/-- C2, witness: a GitHub request with a wrong signature and a GitLab
request with a missing token are both rejected without running any
handler body. -/
theorem webhook_missing_or_invalid_auth_rejected_witness :
    (isRejection (webhook ⟨true, some "sha1=deadbeef", some "push"⟩ "cafe") = true ∧
     runsHandlerBody (webhook ⟨true, some "sha1=deadbeef", some "push"⟩ "cafe") = false) ∧
    (isRejection (gl_webhook ⟨true, none, some "Pipeline Hook"⟩ "secret") = true ∧
     runsHandlerBody (gl_webhook ⟨true, none, some "Pipeline Hook"⟩ "secret") = false) :=
  webhook_missing_or_invalid_auth_rejected
    ⟨true, some "sha1=deadbeef", some "push"⟩ "cafe"
    ⟨true, none, some "Pipeline Hook"⟩ "secret"
    (by intro s hs heq; injection hs with h; rw [← h] at heq; exact absurd heq (by decide))
    (by decide)


/-- C5: for every push payload whose `after` field is the 40-zero SHA for
ref `refs/heads/X`, the handler deletes whichever of the local branches
`github/{ns}/X`, `gitlab/{ns}/X` and bare `X` exist (and no other), and
issues exactly one DELETE call to the GitLab branches API for branch `X`. -/
theorem push_zero_sha_deletes_branches
    (st : GitState) (ns proj ref : String) (tip glUrl : String)
    (hrem : "github/" ++ ns ∈ st.remotes)
    (href : lookupRef st.ghRemoteRefs (ref.drop 11) = some tip)
    (hgl : st.gitlabForgeUrl = some glUrl) :
    push st ns proj ref zeroSha =
      some ⟨.ok,
            st.branches.filter
              (fun b => ¬ (b.1 = "github/" ++ ns ++ "/" ++ ref.drop 11 ∨
                           b.1 = "gitlab/" ++ ns ++ "/" ++ ref.drop 11 ∨
                           b.1 = ref.drop 11)),
            [glDeleteBranchUrl glUrl ns proj (ref.drop 11)],
            []⟩ := by
  unfold push
  rw [if_neg (by simp [hrem]), href]
  dsimp only
  rw [if_pos rfl, hgl]

/-- C5, witness: deleting `refs/heads/feature-x` in namespace `ns`
removes the local branches `github/ns/feature-x` and `feature-x` (the
two that exist), keeps `master`, and issues exactly one DELETE call for
`feature-x`. -/
theorem push_zero_sha_deletes_branches_witness :
    push ⟨["github/ns", "gitlab/ns"],
          [("github/ns/feature-x", "abc"), ("master", "eee"), ("feature-x", "abc")],
          [("feature-x", "abc")], [("feature-x", "abc")],
          some "https://gitlab.laas.fr"⟩
        "ns" "prj" "refs/heads/feature-x" zeroSha =
      some ⟨.ok, [("master", "eee")],
            ["https://gitlab.laas.fr/api/v4/projects/ns%2Fprj/repository/branches/feature-x"],
            []⟩ := by
  rw [push_zero_sha_deletes_branches _ _ _ _ "abc" "https://gitlab.laas.fr"
    (by decide) (by decide) rfl]
  decide

/-- C6: for every push payload whose claimed `after` SHA is neither the
zero SHA nor the tip of the freshly fetched GitHub remote ref, the
handler returns a bad-request response and no local branch ref is
created or modified (and nothing is pushed or deleted). -/
theorem push_sha_mismatch_rejected
    (st : GitState) (ns proj ref after tip : String)
    (hrem : "github/" ++ ns ∈ st.remotes)
    (href : lookupRef st.ghRemoteRefs (ref.drop 11) = some tip)
    (hzero : after ≠ zeroSha)
    (hne : tip ≠ after) :
    push st ns proj ref after = some ⟨.badRequest, st.branches, [], []⟩ := by
  unfold push
  rw [if_neg (by simp [hrem]), href]
  dsimp only
  rw [if_neg hzero, if_pos hne]

/-- C6, witness: fetched tip `abc123` versus payload `after = def456`
yields a bad request and leaves the branches untouched. -/
theorem push_sha_mismatch_rejected_witness :
    push ⟨["github/ns", "gitlab/ns"],
          [("github/ns/devel", "abc123"), ("master", "eee")],
          [("devel", "abc123")], [("devel", "abc123")],
          some "https://gitlab.laas.fr"⟩
        "ns" "prj" "refs/heads/devel" "def456" =
      some ⟨.badRequest,
            [("github/ns/devel", "abc123"), ("master", "eee")], [], []⟩ :=
  push_sha_mismatch_rejected _ "ns" "prj" "refs/heads/devel" "def456" "abc123"
    (by decide) (by decide) (by decide) (by decide)


end GhViews
